import Mathlib

/-! # pion-client: the listener and peer roles of `main.go`

A shallow embedding of `src/main.go`.  The two role functions, `listener` and
`peerFunc`, are sequential Go code whose only effects are calls into external
collaborators (the `net` package, the TURN client library, `log`, `time`,
`os/signal`).  Each call is recorded as an `Event`; the outcome of every
collaborator call is supplied by an environment record, so that a run of a
role function is a pure function from the environment to the trace of events
it performs and the way it leaves the function (`Exit`).

Go's `defer` / `panic` discipline is modelled explicitly: a function body
produces a trace, the stack of deferred calls registered so far and a status;
`runDefers` then executes the deferred calls last-in first-out, both on a
normal return and while panicking.
-/

namespace PionClient

/-! ## Data -/

/-- One byte of a Go `string` or `[]byte`. -/
abbrev Byte := UInt8

/-- A Go `string` (equally a `[]byte`): a finite sequence of bytes. -/
abbrev Str := List Byte

/-- The byte `'='`. -/
def eqByte : Byte := 61

/-- The separator `"="` passed to `strings.SplitN` at `main.go:102`. -/
def sepEq : Str := [eqByte]

/-- The payload `[]byte("Hello")` (`main.go:79`, `main.go:150`). -/
def helloPayload : Str := [72, 101, 108, 108, 111]

/-- The payload `[]byte("hello!")` (`main.go:84`). -/
def helloBangPayload : Str := [104, 101, 108, 108, 111, 33]

/-- A network address (`net.Addr`), as handed back by the collaborators. -/
structure Addr where
  host : Str
  port : Nat
deriving DecidableEq, Repr

/-- The fields of `turn.ClientConfig` that `listener` fills in from its
arguments (`main.go:106-114`); `Conn` is the socket of the run, passed as it
is (the comment at `main.go:104-105` speaks of wrapping it in a STUNConn, which
the code does not do), and `LoggerFactory` a fresh default factory. -/
structure ClientConfig where
  STUNServerAddr : Str
  TURNServerAddr : Str
  Username : Str
  Password : Str
  Realm : Str
deriving DecidableEq, Repr

/-- The two signals registered at `main.go:175`. -/
inductive Signal where
  | SIGINT
  | SIGTERM
deriving DecidableEq, Repr

/-- The log lines the program can write.  The `%s` of an error value is left
abstract; addresses and payloads are kept. -/
inductive LogMsg where
  | failedToListen
  | failedToCloseConnection
  | failedToResolvePeerAddress
  | failedToWrite
  | failedToCreateTURNClient
  | failedToAllocate
  | failedToSendBindingRequest
  | tryToSendToPeer (peer : Str)
  | relayedAddress (a : Addr)
  | sendBindingRequest (a : Addr)
  | receivedFrom (src : Addr) (msg : Str)
  | exit
deriving DecidableEq, Repr

/-- The observable operations of a run, one constructor per collaborator call
of `main.go`, each carrying its arguments and its outcome. -/
inductive Event where
  /-- the call `net.ListenPacket("udp4", "0.0.0.0:0")` -/
  | listenPacket (ok : Bool)
  /-- the call `conn.Close()` on the local socket -/
  | connClose (ok : Bool)
  /-- the call `net.ResolveUDPAddr("udp", peer)` -/
  | resolveUDPAddr (peer : Str) (r : Option Addr)
  /-- the call `conn.WriteTo(payload, dst)` on the local socket -/
  | connWriteTo (payload : Str) (dst : Addr) (ok : Bool)
  /-- the call `turn.NewClient(cfg)` -/
  | newClient (cfg : ClientConfig) (ok : Bool)
  /-- the call `client.Close()` -/
  | clientClose
  /-- the call `client.Listen()` -/
  | clientListen (ok : Bool)
  /-- the call `client.Allocate()`; on success the relay conn, given by its local address -/
  | clientAllocate (r : Option Addr)
  /-- the call `client.SendBindingRequest()`; on success the mapped address -/
  | clientSendBindingRequest (r : Option Addr)
  /-- the call `turnConn.WriteTo(payload, dst)` on the relay conn -/
  | turnConnWriteTo (payload : Str) (dst : Addr) (ok : Bool)
  /-- the call `turnConn.Close()` -/
  | turnConnClose (ok : Bool)
  /-- the call `turnConn.ReadFrom(buf)`; on success the byte count and the source -/
  | turnConnReadFrom (r : Option (Nat × Addr))
  /-- a line written through `log` -/
  | log (m : LogMsg)
  /-- the call `time.Sleep(ms * time.Millisecond)` -/
  | sleep (ms : Nat)
  /-- the `go func() { ... }()` statement starting the receive loop -/
  | goReceiveLoop
  /-- the call `signal.Notify(sigs, syscall.SIGINT, syscall.SIGTERM)` -/
  | signalNotify
  /-- the main flow starts to block on `<-sigs` -/
  | signalWait
  /-- the receive `<-sigs` yields a signal -/
  | signalReceived (s : Signal)
deriving DecidableEq, Repr

/-- The value a Go panic carries. -/
inductive PanicValue where
  /-- raised by `log.Panicf` after writing the line -/
  | logPanicf (m : LogMsg)
  /-- the run-time error `index out of range [i] with length n` -/
  | indexOutOfRange (i n : Nat)
deriving DecidableEq, Repr

/-- How control leaves (or fails to leave) a function. -/
inductive Exit where
  /-- normal return -/
  | returned
  /-- the function is left by a panic that nothing recovers -/
  | panicked (v : PanicValue)
  /-- blocked for ever (no signal is delivered) -/
  | blocked
  /-- the observation budget of an unbounded loop is used up; the loop goes on -/
  | running
deriving DecidableEq, Repr

/-- A run: the events performed, in order, and the exit. -/
structure Run where
  trace : List Event
  exit : Exit
deriving DecidableEq, Repr

/-! ## `strings.SplitN` -/

/-- The search of `strings.Index(s, sep)`: the index of the first occurrence of `sep` in
`s`, counted from `i`. -/
def indexFrom (sep : Str) : Str → Nat → Option Nat
  | [], i => if sep = [] then some i else none
  | c :: s, i => if sep.isPrefixOf (c :: s) then some i else indexFrom sep s (i + 1)

/-- The function `strings.Index(s, sep)`. -/
def Index (s sep : Str) : Option Nat := indexFrom sep s 0

/-- The loop of `strings.genSplit` with `sepSave = 0`: at most `n` more cuts. -/
def genSplitLoop (sep : Str) : Nat → Str → List Str
  | 0, s => [s]
  | n + 1, s =>
    match Index s sep with
    | none => [s]
    | some m => s.take m :: genSplitLoop sep n (s.drop (m + sep.length))

/-- The function `strings.SplitN(s, sep, n)` for a non-empty separator and `n ≥ 0`, after
`strings.genSplit`: `n = 0` gives `nil`, `n` is capped at `len(s) + 1`, and the
string is cut at the first `n - 1` occurrences of `sep`.  (The library's
empty-separator branch, which cuts into UTF-8 sequences, is not reached by the
program, whose only call is `SplitN(user, "=", 2)`.) -/
def SplitN (s sep : Str) (n : Nat) : List Str :=
  if n = 0 then []
  else genSplitLoop sep (min n (s.length + 1) - 1) s

/-! ## Go's `defer` and `panic` -/

/-- The calls the role functions defer. -/
inductive Deferred where
  /-- the deferred `conn.Close()` with `log.Panicf` on a close error
  (`main.go:68-72`, `main.go:96-100`) -/
  | connClose
  /-- the deferred `client.Close()` (`main.go:120`) -/
  | clientClose
  /-- the deferred `turnConn.Close()` with `log.Panicf` on a close error
  (`main.go:155-159`) -/
  | turnConnClose
deriving DecidableEq, Repr

/-- A function body that has run as far as it goes: the events so far, the
deferred calls registered so far (most recent first) and the status. -/
structure Frame where
  trace : List Event
  defers : List Deferred
  status : Exit
deriving DecidableEq, Repr

/-- One deferred call: its events, and the panic it raises if its `Close`
reports an error.  `connCloseOk` and `turnConnCloseOk` are the outcomes of
`conn.Close()` and `turnConn.Close()`. -/
def runDeferred (connCloseOk turnConnCloseOk : Bool) : Deferred → List Event × Option PanicValue
  | .connClose =>
    match connCloseOk with
    | true => ([.connClose true], none)
    | false => ([.connClose false, .log .failedToCloseConnection],
        some (.logPanicf .failedToCloseConnection))
  | .clientClose => ([.clientClose], none)
  | .turnConnClose =>
    match turnConnCloseOk with
    | true => ([.turnConnClose true], none)
    | false => ([.turnConnClose false, .log .failedToCloseConnection],
        some (.logPanicf .failedToCloseConnection))

/-- Run the deferred calls, most recent first.  A deferred call that panics
replaces the current status; the remaining deferred calls still run. -/
def runDefers (connCloseOk turnConnCloseOk : Bool) : List Deferred → List Event → Exit → Run
  | [], t, e => ⟨t, e⟩
  | d :: ds, t, e =>
    match runDeferred connCloseOk turnConnCloseOk d with
    | (evs, none) => runDefers connCloseOk turnConnCloseOk ds (t ++ evs) e
    | (evs, some v) => runDefers connCloseOk turnConnCloseOk ds (t ++ evs) (.panicked v)

/-- Leave the function: on a return or a panic the deferred calls run; a
function that is blocked or still looping runs none. -/
def finish (connCloseOk turnConnCloseOk : Bool) (f : Frame) : Run :=
  match f.status with
  | .returned => runDefers connCloseOk turnConnCloseOk f.defers f.trace .returned
  | .panicked v => runDefers connCloseOk turnConnCloseOk f.defers f.trace (.panicked v)
  | .blocked => ⟨f.trace, .blocked⟩
  | .running => ⟨f.trace, .running⟩

/-! ## The listener role (`main.go:91-179`) -/

/-- The outcome of every collaborator call of one `listener` run. -/
structure ListenerEnv where
  /-- whether `net.ListenPacket` succeeds -/
  listenPacket : Bool
  /-- whether `turn.NewClient` accepts the configuration -/
  newClient : Bool
  /-- whether `client.Listen` succeeds -/
  clientListen : Bool
  /-- the result of `client.Allocate`: the relay conn (its local address), or an error -/
  clientAllocate : Option Addr
  /-- the result of `client.SendBindingRequest`: the mapped address, or an error -/
  sendBindingRequest : Option Addr
  /-- whether `turnConn.WriteTo` succeeds -/
  turnConnWriteTo : Bool
  /-- whether `turnConn.Close` succeeds -/
  turnConnClose : Bool
  /-- whether `conn.Close` succeeds -/
  connClose : Bool
  /-- the signal delivered on `sigs`, if one ever is -/
  signal : Option Signal
deriving DecidableEq, Repr

/-- The body of `listener`, statement by statement, up to the point where it
returns, panics or blocks. -/
def listenerBody (env : ListenerEnv) (turnServerAddrStr user realm : Str) : Frame :=
  -- 92-95: conn, err := net.ListenPacket("udp4", "0.0.0.0:0")
  let t1 := [Event.listenPacket env.listenPacket]
  match env.listenPacket with
  | false =>
    ⟨t1 ++ [.log .failedToListen], [], .panicked (.logPanicf .failedToListen)⟩
  | true =>
  -- 96-100: defer conn.Close()
  let d1 := [Deferred.connClose]
  -- 102: cred := strings.SplitN(user, "=", 2)
  let cred := SplitN user sepEq 2
  -- 106-114: cfg := &turn.ClientConfig{ .. Username: cred[0], Password: cred[1], .. }
  match cred[0]? with
  | none => ⟨t1, d1, .panicked (.indexOutOfRange 0 cred.length)⟩
  | some username =>
  match cred[1]? with
  | none => ⟨t1, d1, .panicked (.indexOutOfRange 1 cred.length)⟩
  | some password =>
  let cfg : ClientConfig :=
    { STUNServerAddr := turnServerAddrStr
      TURNServerAddr := turnServerAddrStr
      Username := username
      Password := password
      Realm := realm }
  -- 116-119: client, err := turn.NewClient(cfg)
  let t2 := t1 ++ [.newClient cfg env.newClient]
  match env.newClient with
  | false =>
    ⟨t2 ++ [.log .failedToCreateTURNClient], d1, .panicked (.logPanicf .failedToCreateTURNClient)⟩
  | true =>
  -- 120: defer client.Close()
  let d2 := Deferred.clientClose :: d1
  -- 123-126: err = client.Listen()
  let t3 := t2 ++ [.clientListen env.clientListen]
  match env.clientListen with
  | false =>
    ⟨t3 ++ [.log .failedToListen], d2, .panicked (.logPanicf .failedToListen)⟩
  | true =>
  -- 131-134: turnConn, err := client.Allocate()
  let t4 := t3 ++ [.clientAllocate env.clientAllocate]
  match env.clientAllocate with
  | none =>
    ⟨t4 ++ [.log .failedToAllocate], d2, .panicked (.logPanicf .failedToAllocate)⟩
  | some relayed =>
  -- 136: log.Printf("relayed-address=%s", turnConn.LocalAddr())
  let t5 := t4 ++ [.log (.relayedAddress relayed)]
  -- 139-142: mappedAddr, err := client.SendBindingRequest()
  let t6 := t5 ++ [.clientSendBindingRequest env.sendBindingRequest]
  match env.sendBindingRequest with
  | none =>
    ⟨t6 ++ [.log .failedToSendBindingRequest], d2,
      .panicked (.logPanicf .failedToSendBindingRequest)⟩
  | some mappedAddr =>
  -- 144: log.Printf("SendBindingRequest=%s", mappedAddr)
  let t7 := t6 ++ [.log (.sendBindingRequest mappedAddr)]
  -- 150-153: _, err = turnConn.WriteTo([]byte("Hello"), mappedAddr)
  let t8 := t7 ++ [.turnConnWriteTo helloPayload mappedAddr env.turnConnWriteTo]
  match env.turnConnWriteTo with
  | false =>
    ⟨t8 ++ [.log .failedToWrite], d2, .panicked (.logPanicf .failedToWrite)⟩
  | true =>
  -- 155-159: defer turnConn.Close()
  let d3 := Deferred.turnConnClose :: d2
  -- 160-172: go func() { .. }()
  -- 174-175: sigs := make(chan os.Signal, 1); signal.Notify(sigs, SIGINT, SIGTERM)
  -- 176: <-sigs
  let t9 := t8 ++ [.goReceiveLoop, .signalNotify, .signalWait]
  match env.signal with
  | none => ⟨t9, d3, .blocked⟩
  | some s =>
  -- 177: log.Println("exit")
  ⟨t9 ++ [.signalReceived s, .log .exit], d3, .returned⟩

/-- The function `listener(turnServerAddrStr, user, realm)`. -/
def listener (env : ListenerEnv) (turnServerAddrStr user realm : Str) : Run :=
  finish env.connClose env.turnConnClose (listenerBody env turnServerAddrStr user realm)

/-! ## The receive loop (`main.go:160-172`) -/

/-- What one `turnConn.ReadFrom` call delivers: a datagram with its source,
or an error. -/
inductive ReadResult where
  | datagram (payload : Str) (src : Addr)
  | error
deriving DecidableEq, Repr

/-- The size of the receive buffer, `make([]byte, 1600)`. -/
def bufSize : Nat := 1600

/-- Go's `copy(dst, src)` on byte slices: the first `min(len(src), len(dst))`
bytes of `dst` are overwritten, the rest is kept. -/
def copyInto (dst src : Str) : Str :=
  src.take dst.length ++ dst.drop (min src.length dst.length)

/-- The `for` loop of the goroutine, with `buf` the current buffer content.
Each read result of the list answers one `ReadFrom` call: a datagram is copied
into `buf` and `n` is the number of bytes copied.  When the list is used up
the next `ReadFrom` never returns. -/
def receiveLoopFrom : List ReadResult → Str → Run
  | [], _ => ⟨[], .blocked⟩
  | .error :: _, _ =>
    -- 164-166: if readerErr != nil { break }
    ⟨[.turnConnReadFrom none], .returned⟩
  | .datagram payload src :: rest, buf =>
    -- 163: n, from, readerErr := turnConn.ReadFrom(buf)
    let n := min payload.length buf.length
    let buf1 := copyInto buf payload
    -- 168: msg := string(buf[:n])
    let msg := buf1.take n
    let r := receiveLoopFrom rest buf1
    -- 169-170: log.Printf("Received from %v: %v", from, msg); time.Sleep(100ms)
    ⟨[.turnConnReadFrom (some (n, src)), .log (.receivedFrom src msg), .sleep 100] ++ r.trace,
      r.exit⟩

/-- The goroutine started at `main.go:160`: a fresh zeroed buffer, then the loop. -/
def receiveLoop (reads : List ReadResult) : Run :=
  receiveLoopFrom reads (List.replicate bufSize 0)

/-! ## The peer role (`main.go:63-89`) -/

/-- The outcome of every collaborator call of one `peerFunc` run. -/
structure PeerEnv where
  /-- whether `net.ListenPacket` succeeds -/
  listenPacket : Bool
  /-- the resolver `net.ResolveUDPAddr("udp", ·)` -/
  resolve : Str → Option Addr
  /-- the outcome of the `i`-th `conn.WriteTo` call of the run, counted from 0 -/
  writeTo : Nat → Bool
  /-- whether `conn.Close` succeeds -/
  connClose : Bool

/-- The `for` loop of `peerFunc` (`main.go:82-88`), observed for at most
`fuel` iterations; `i` is the number of `WriteTo` calls made so far. -/
def peerLoop (env : PeerEnv) (peer : Str) (peerAddr : Addr) : Nat → Nat → List Event × Exit
  | 0, _ => ([], .running)
  | fuel + 1, i =>
    -- 83-86: log.Printf(..); conn.WriteTo([]byte("hello!"), peerAddr)
    let t := [Event.log (.tryToSendToPeer peer),
      Event.connWriteTo helloBangPayload peerAddr (env.writeTo i)]
    match env.writeTo i with
    | false => (t ++ [.log .failedToWrite], .panicked (.logPanicf .failedToWrite))
    | true =>
      -- 87: time.Sleep(500 * time.Millisecond)
      let r := peerLoop env peer peerAddr fuel (i + 1)
      (t ++ [.sleep 500] ++ r.1, r.2)

/-- The body of `peerFunc`, with the loop observed for `fuel` iterations. -/
def peerFuncBody (env : PeerEnv) (fuel : Nat) (_turnServerAddrStr _user _realm peer : Str) :
    Frame :=
  -- 64-67: conn, err := net.ListenPacket("udp4", "0.0.0.0:0")
  let t1 := [Event.listenPacket env.listenPacket]
  match env.listenPacket with
  | false =>
    ⟨t1 ++ [.log .failedToListen], [], .panicked (.logPanicf .failedToListen)⟩
  | true =>
  -- 68-72: defer conn.Close()
  let d1 := [Deferred.connClose]
  -- 74-77: peerAddr, err := net.ResolveUDPAddr("udp", peer)
  let t2 := t1 ++ [.resolveUDPAddr peer (env.resolve peer)]
  match env.resolve peer with
  | none =>
    ⟨t2 ++ [.log .failedToResolvePeerAddress], d1,
      .panicked (.logPanicf .failedToResolvePeerAddress)⟩
  | some peerAddr =>
  -- 79-81: conn.WriteTo([]byte("Hello"), peerAddr)
  let t3 := t2 ++ [.connWriteTo helloPayload peerAddr (env.writeTo 0)]
  match env.writeTo 0 with
  | false =>
    ⟨t3 ++ [.log .failedToWrite], d1, .panicked (.logPanicf .failedToWrite)⟩
  | true =>
  -- 82-88: for { .. }
  let r := peerLoop env peer peerAddr fuel 1
  ⟨t3 ++ r.1, d1, r.2⟩

/-- The function `peerFunc(turnServerAddrStr, user, realm, peer)`, its loop
observed for `fuel` iterations.  No relay conn exists in this role, so the
outcome of `turnConn.Close` is immaterial. -/
def peerFunc (env : PeerEnv) (fuel : Nat) (turnServerAddrStr user realm peer : Str) : Run :=
  finish env.connClose true (peerFuncBody env fuel turnServerAddrStr user realm peer)

/-! ## Observations on traces -/

/-- An operation on the TURN client or on the relay conn (client creation,
listen, allocate, binding request, relay write, relay read, the start of the
receive loop, and the two closes). -/
def Event.isTurnOp : Event → Bool
  | .newClient _ _ => true
  | .clientClose => true
  | .clientListen _ => true
  | .clientAllocate _ => true
  | .clientSendBindingRequest _ => true
  | .turnConnWriteTo _ _ _ => true
  | .turnConnClose _ => true
  | .turnConnReadFrom _ => true
  | .goReceiveLoop => true
  | _ => false

/-- A call of `turn.NewClient`. -/
def Event.isNewClient : Event → Bool
  | .newClient _ _ => true
  | _ => false

/-- A close of one of the three resources: relay conn, TURN client, socket. -/
def Event.isClose : Event → Bool
  | .connClose _ => true
  | .clientClose => true
  | .turnConnClose _ => true
  | _ => false

/-- A close of the local socket. -/
def Event.isConnClose : Event → Bool
  | .connClose _ => true
  | _ => false

/-- A binding request. -/
def Event.isBindingRequest : Event → Bool
  | .clientSendBindingRequest _ => true
  | _ => false

/-- A write on the relay conn. -/
def Event.isRelayWrite : Event → Bool
  | .turnConnWriteTo _ _ _ => true
  | _ => false

/-- A send on the local socket. -/
def Event.isConnWrite : Event → Bool
  | .connWriteTo _ _ _ => true
  | _ => false

/-- A line written through `log`. -/
def Event.isLog : Event → Bool
  | .log _ => true
  | _ => false

/-- The delivery of a signal on `sigs`. -/
def Event.isSignalReceived : Event → Bool
  | .signalReceived _ => true
  | _ => false

/-- The exit is a panic. -/
def Exit.isPanic : Exit → Bool
  | .panicked _ => true
  | _ => false

/-- The stages of a listener run: the six setup steps, then the start of the
receive loop and the wait for a signal. -/
inductive Step where
  | socketBind
  | clientCreation
  | listen
  | allocate
  | bindingRequest
  | probeSend
  | receiveLoopStart
  | signalWait
deriving DecidableEq, Repr

/-- The order in which `listener` goes through its stages. -/
def stepOrder : List Step :=
  [.socketBind, .clientCreation, .listen, .allocate, .bindingRequest, .probeSend,
    .receiveLoopStart, .signalWait]

/-- The stage an event attempts, with whether the attempt succeeded; `none`
for events that are not the attempt of a stage. -/
def Event.step : Event → Option (Step × Bool)
  | .listenPacket ok => some (.socketBind, ok)
  | .newClient _ ok => some (.clientCreation, ok)
  | .clientListen ok => some (.listen, ok)
  | .clientAllocate r => some (.allocate, r.isSome)
  | .clientSendBindingRequest r => some (.bindingRequest, r.isSome)
  | .turnConnWriteTo _ _ ok => some (.probeSend, ok)
  | .goReceiveLoop => some (.receiveLoopStart, true)
  | .signalWait => some (.signalWait, true)
  | _ => none

/-- The stages attempted in a trace, in order, each with its success. -/
def stepsOf (t : List Event) : List (Step × Bool) := t.filterMap Event.step

/-- The part of a secret before its first `=` (the whole secret if it has none). -/
def beforeFirstEq (s : Str) : Str := s.takeWhile (· != eqByte)

/-- The part of a secret after its first `=` (empty if it has none). -/
def afterFirstEq (s : Str) : Str := (s.dropWhile (· != eqByte)).drop 1

/-- A secret that has no `=`, or whose part before or after the first `=` is
empty. -/
def Unsplittable (s : Str) : Bool :=
  !s.contains eqByte || (beforeFirstEq s).isEmpty || (afterFirstEq s).isEmpty

/-- The pauses between consecutive sends on the local socket: scanning the
trace, `cur` is `none` before the first send and afterwards holds the sleeps
seen since the last send. -/
def sendGapsFrom : List Event → Option (List Nat) → List (List Nat)
  | [], _ => []
  | .connWriteTo _ _ _ :: t, none => sendGapsFrom t (some [])
  | .connWriteTo _ _ _ :: t, some g => g :: sendGapsFrom t (some [])
  | .sleep ms :: t, some g => sendGapsFrom t (some (g ++ [ms]))
  | _ :: t, cur => sendGapsFrom t cur

/-- For every two consecutive sends of a trace, the list of the sleeps (in
milliseconds) performed between them. -/
def sendGaps (t : List Event) : List (List Nat) := sendGapsFrom t none

/-- The destinations of the sends on the local socket, in order. -/
def sendDests : List Event → List Addr
  | [] => []
  | .connWriteTo _ dst _ :: t => dst :: sendDests t
  | _ :: t => sendDests t

/-- The events reporting an arrival, expected from a list of datagrams read
into a buffer of `bufSize` bytes: per datagram the read, the log line with
source and payload, and the pause. -/
def arrivalEvents (ds : List (Str × Addr)) : List Event :=
  (ds.map fun d =>
    [Event.turnConnReadFrom (some (min d.1.length bufSize, d.2)),
      Event.log (.receivedFrom d.2 (d.1.take (min d.1.length bufSize))),
      Event.sleep 100]).flatten

/-- A list of stage outcomes cut after its first failure: the stages are gone
through in order, and nothing follows a stage that failed. -/
def stopAtFirstFailure : List (Step × Bool) → List (Step × Bool)
  | [] => []
  | (st, true) :: rest => (st, true) :: stopAtFirstFailure rest
  | (st, false) :: _ => [(st, false)]

/-- The stages a listener run is expected to attempt, with their outcomes:
the socket bind; then, unless the bind failed or the secret has no `=` (in
which case the run ends there), the remaining stages in the fixed order, each
attempted as soon as the one before it succeeded and none after a failure. -/
def expectedSteps (env : ListenerEnv) (secretHasEq : Bool) : List (Step × Bool) :=
  match env.listenPacket, secretHasEq with
  | false, _ => [(.socketBind, false)]
  | true, false => [(.socketBind, true)]
  | true, true =>
    (.socketBind, true) :: stopAtFirstFailure
      [(.clientCreation, env.newClient), (.listen, env.clientListen),
        (.allocate, env.clientAllocate.isSome), (.bindingRequest, env.sendBindingRequest.isSome),
        (.probeSend, env.turnConnWriteTo), (.receiveLoopStart, true), (.signalWait, true)]

/-! ## Sample environments -/

/-- A run in which every collaborator call succeeds and SIGINT arrives. -/
def envAllOk : ListenerEnv :=
  { listenPacket := true, newClient := true, clientListen := true,
    clientAllocate := some ⟨[10, 0, 0, 1], 5000⟩,
    sendBindingRequest := some ⟨[203, 0, 113, 5], 54321⟩,
    turnConnWriteTo := true, turnConnClose := true, connClose := true,
    signal := some .SIGINT }

/-- A run in which allocation succeeds and the binding request fails. -/
def envBindingFails : ListenerEnv := { envAllOk with sendBindingRequest := none }

/-- A run in which allocation and the binding request succeed and the probe
write fails. -/
def envProbeFails : ListenerEnv := { envAllOk with turnConnWriteTo := false }

/-- A run in which allocation fails. -/
def envAllocateFails : ListenerEnv := { envAllOk with clientAllocate := none }

/-- The secret `u=p`. -/
def secretUP : Str := [117, 61, 112]

/-- The secret `=p`, with nothing before the `=`. -/
def secretEmptyUser : Str := [61, 112]

/-- The secret `up`, with no `=`. -/
def secretNoEq : Str := [117, 112]

/-- A peer address string and the address it resolves to. -/
def samplePeer : Str := [112, 58, 49]

/-- The address `samplePeer` resolves to. -/
def samplePeerAddr : Addr := ⟨[203, 0, 113, 5], 54321⟩

/-- A peer run in which everything succeeds. -/
def peerEnvAllOk : PeerEnv :=
  { listenPacket := true, resolve := fun _ => some samplePeerAddr,
    writeTo := fun _ => true, connClose := true }

/-- A peer run in which the third send (index 2) fails. -/
def peerEnvThirdSendFails : PeerEnv :=
  { listenPacket := true, resolve := fun _ => some samplePeerAddr,
    writeTo := fun i => decide (i ≠ 2), connClose := true }

/-- A peer run in which the peer address does not resolve. -/
def peerEnvNoResolve : PeerEnv :=
  { listenPacket := true, resolve := fun _ => none,
    writeTo := fun _ => true, connClose := true }

/-- An event the peer role may perform for the peer string `peer` that
resolves to `resolved`: the socket bind, the resolution of `peer`, a send to
the resolved address, a pause, the socket close, or a log line. -/
def Event.isPeerOp (peer : Str) (resolved : Option Addr) : Event → Bool
  | .listenPacket _ => true
  | .resolveUDPAddr p x => decide (p = peer ∧ x = resolved)
  | .connWriteTo _ dst _ => decide (resolved = some dst)
  | .sleep _ => true
  | .connClose _ => true
  | .log _ => true
  | _ => false

/-! ## Facts about `strings.SplitN(s, "=", 2)` -/

theorem isPrefixOf_sepEq (c : Byte) (s : Str) :
    sepEq.isPrefixOf (c :: s) = (eqByte == c) := by
  simp [sepEq, List.isPrefixOf]

theorem sepEq_ne_nil : sepEq ≠ [] := by simp [sepEq]

theorem indexFrom_sepEq_none (s : Str) (i : Nat) (h : eqByte ∉ s) :
    indexFrom sepEq s i = none := by
  induction s generalizing i with
  | nil => simp [indexFrom, sepEq_ne_nil]
  | cons c s ih =>
    simp only [List.mem_cons, not_or] at h
    have hc : ¬ (eqByte = c) := h.1
    rw [indexFrom, isPrefixOf_sepEq]
    simp [hc, ih _ h.2]

theorem indexFrom_sepEq_append (u p : Str) (i : Nat) (h : eqByte ∉ u) :
    indexFrom sepEq (u ++ eqByte :: p) i = some (i + u.length) := by
  induction u generalizing i with
  | nil =>
    rw [List.nil_append, indexFrom, isPrefixOf_sepEq]
    simp
  | cons c u ih =>
    simp only [List.mem_cons, not_or] at h
    have hc : ¬ (eqByte = c) := h.1
    rw [List.cons_append, indexFrom, isPrefixOf_sepEq]
    simp [hc, ih _ h.2]
    omega

/-- A string without `=` is returned whole, as a slice of length one. -/
theorem SplitN_no_eq (s : Str) (h : eqByte ∉ s) : SplitN s sepEq 2 = [s] := by
  cases s with
  | nil => simp [SplitN, genSplitLoop]
  | cons c s =>
    have : min 2 ((c :: s).length + 1) - 1 = 1 := by simp
    simp [SplitN, this, genSplitLoop, Index, indexFrom_sepEq_none _ _ h]

/-- A string is cut at its first `=`, and only there. -/
theorem SplitN_append (u p : Str) (h : eqByte ∉ u) :
    SplitN (u ++ sepEq ++ p) sepEq 2 = [u, p] := by
  have hl : min 2 ((u ++ sepEq ++ p).length + 1) - 1 = 1 := by simp [sepEq]; omega
  have hi := indexFrom_sepEq_append u p 0 h
  simp only [Nat.zero_add] at hi
  have e : u ++ sepEq ++ p = u ++ eqByte :: p := by simp [sepEq]
  have hlen : sepEq.length = 1 := rfl
  rw [SplitN, if_neg (by decide), hl, e]
  simp only [genSplitLoop, Index, hi, hlen]
  simp

/-! ## The listener role -/

/-- With a secret cut into `u` and `p`, `turn.NewClient` is called at most
once, with exactly these two as user name and password. -/
theorem listener_newClient_events (env : ListenerEnv) (a u p r : Str) (h : eqByte ∉ u) :
    (listener env a (u ++ sepEq ++ p) r).trace.filter Event.isNewClient =
      if env.listenPacket = true then [Event.newClient ⟨a, a, u, p, r⟩ env.newClient] else [] := by
  simp only [listener, listenerBody, SplitN_append _ _ h]
  rcases env with ⟨lp, nc, cl, ca, sb, tw, tc, cc, sg⟩
  dsimp only
  repeat' split
  all_goals
    cases cc <;> cases tc <;>
      simp_all [finish, runDefers, runDeferred, Event.isNewClient]


/-- C1, as stated, fails: the secret `=p` has an empty part before its `=`,
yet the run does not fail before a TURN client is created: the client is
created (with an empty user name) and the run goes on to a normal return. -/
theorem c1_empty_half_not_rejected :
    Unsplittable secretEmptyUser = true ∧
    ¬ ((listener envAllOk [] secretEmptyUser []).exit.isPanic = true ∧
        ∀ e ∈ (listener envAllOk [] secretEmptyUser []).trace, e.isTurnOp = false) := by
  decide

/-- C1, amended: for a secret without `=` the run fails by a panic before any
TURN client is created (no operation on a client or relay conn is in the
trace), and when the socket was bound the panic raised at the split is the
run-time error `index out of range [1] with length 1`.  A secret that has an
`=` is never rejected at the split, whether or not a half is empty: with the
socket bound, `turn.NewClient` is called with the two halves. -/
theorem c1_secret_without_eq_fails_before_client (env : ListenerEnv) (a r : Str) :
    (∀ s : Str, eqByte ∉ s →
      (listener env a s r).exit.isPanic = true ∧
      (∀ e ∈ (listener env a s r).trace, e.isTurnOp = false) ∧
      (env.listenPacket = true →
        (listenerBody env a s r).status = .panicked (.indexOutOfRange 1 1))) ∧
    (∀ u p : Str, eqByte ∉ u → env.listenPacket = true →
      Event.newClient ⟨a, a, u, p, r⟩ env.newClient ∈
        (listener env a (u ++ sepEq ++ p) r).trace) := by
  constructor
  · intro s h
    simp only [listener, listenerBody, SplitN_no_eq _ h]
    rcases env with ⟨lp, nc, cl, ca, sb, tw, tc, cc, sg⟩
    cases lp <;> cases cc <;>
      simp [finish, runDefers, runDeferred, Exit.isPanic, Event.isTurnOp]
  · intro u p h hl
    have hf := listener_newClient_events env a u p r h
    rw [if_pos hl] at hf
    have hm : Event.newClient ⟨a, a, u, p, r⟩ env.newClient ∈
        (listener env a (u ++ sepEq ++ p) r).trace.filter Event.isNewClient := by
      rw [hf]; exact List.mem_singleton.mpr rfl
    exact (List.mem_filter.mp hm).1

/-- The amended C1 at the secret `up`, all collaborators succeeding. -/
theorem c1_secret_without_eq_fails_before_client_witness :
    eqByte ∉ secretNoEq ∧
    (listener envAllOk [] secretNoEq []).exit.isPanic = true ∧
    (listenerBody envAllOk [] secretNoEq []).status = .panicked (.indexOutOfRange 1 1) :=
  ⟨by decide,
    ((c1_secret_without_eq_fails_before_client envAllOk [] []).1 secretNoEq (by decide)).1,
    ((c1_secret_without_eq_fails_before_client envAllOk [] []).1 secretNoEq (by decide)).2.2 rfl⟩

/-- C2: for a non-empty `user` without `=` and a non-empty `pass`, a run on
the secret `user=pass` hands `turn.NewClient` no configuration other than the
one with `Username = user` and `Password = pass`; and when the socket was
bound it builds that configuration and calls `turn.NewClient` with it exactly
once. -/
theorem c2_split_yields_user_and_pass (env : ListenerEnv) (a user pass r : Str)
    (_hu : user ≠ []) (hne : eqByte ∉ user) (_hp : pass ≠ []) :
    (∀ cfg ok, Event.newClient cfg ok ∈ (listener env a (user ++ sepEq ++ pass) r).trace →
      cfg.Username = user ∧ cfg.Password = pass) ∧
    (env.listenPacket = true →
      (listener env a (user ++ sepEq ++ pass) r).trace.filter Event.isNewClient =
        [Event.newClient ⟨a, a, user, pass, r⟩ env.newClient]) := by
  have hf := listener_newClient_events env a user pass r hne
  constructor
  · intro cfg ok hmem
    have hm : Event.newClient cfg ok ∈
        (listener env a (user ++ sepEq ++ pass) r).trace.filter Event.isNewClient :=
      List.mem_filter.mpr ⟨hmem, rfl⟩
    rw [hf] at hm
    split at hm
    · simp only [List.mem_singleton, Event.newClient.injEq] at hm
      rw [hm.1]
      exact ⟨rfl, rfl⟩
    · simp at hm
  · intro hl
    rw [hf, if_pos hl]

/-- C2 at the secret `u=p=q`: the password `p=q` keeps its own `=`. -/
theorem c2_split_yields_user_and_pass_witness :
    (listener envAllOk [] ([117] ++ sepEq ++ [112, 61, 113]) []).trace.filter Event.isNewClient =
      [Event.newClient ⟨[], [], [117], [112, 61, 113], []⟩ true] :=
  (c2_split_yields_user_and_pass envAllOk [] [117] [112, 61, 113] []
    (by decide) (by decide) (by decide)).2 rfl


/-- The receive loop performs reads, log lines and pauses only. -/
theorem receiveLoopFrom_events (reads : List ReadResult) (buf : Str) :
    ∀ e ∈ (receiveLoopFrom reads buf).trace,
      (∃ x, e = .turnConnReadFrom x) ∨ (∃ m, e = .log m) ∨ e = .sleep 100 := by
  induction reads generalizing buf with
  | nil => simp [receiveLoopFrom]
  | cons x rest ih =>
    cases x with
    | error => simp [receiveLoopFrom]
    | datagram payload src =>
      intro e he
      simp only [receiveLoopFrom, List.cons_append, List.nil_append, List.mem_cons] at he
      rcases he with he | he | he | he
      · exact Or.inl ⟨_, he⟩
      · exact Or.inr (Or.inl ⟨_, he⟩)
      · exact Or.inr (Or.inr he)
      · exact ih _ e he

/-- C3: in a run in which the signal is received (which requires that the
whole setup succeeded), the close events of the trace are exactly the relay
conn close, then the TURN client close, then the socket close, each once;
nothing is closed before the signal is received; and the receive loop running
beside the main flow closes nothing. -/
theorem c3_close_order_on_signal (env : ListenerEnv) (a u r : Str) (s : Signal)
    (h : Event.signalReceived s ∈ (listener env a u r).trace) :
    (listener env a u r).trace.filter Event.isClose =
      [.turnConnClose env.turnConnClose, .clientClose, .connClose env.connClose] ∧
    ((listener env a u r).trace.takeWhile (fun e => !e.isSignalReceived)).filter
      Event.isClose = [] ∧
    (∀ reads, ∀ e ∈ (receiveLoop reads).trace, e.isClose = false) := by
  refine ⟨?_, ?_, ?_⟩
  · revert h
    simp only [listener, listenerBody]
    generalize SplitN u sepEq 2 = cred
    rcases env with ⟨lp, nc, cl, ca, sb, tw, tc, cc, sg⟩
    dsimp only
    repeat' split
    all_goals
      cases cc <;> cases tc <;>
        simp [finish, runDefers, runDeferred, Event.isClose]
  · revert h
    simp only [listener, listenerBody]
    generalize SplitN u sepEq 2 = cred
    rcases env with ⟨lp, nc, cl, ca, sb, tw, tc, cc, sg⟩
    dsimp only
    repeat' split
    all_goals
      cases cc <;> cases tc <;>
        simp [finish, runDefers, runDeferred, Event.isClose, Event.isSignalReceived,
          List.takeWhile]
  · intro reads e he
    rcases receiveLoopFrom_events reads _ e he with ⟨x, rfl⟩ | ⟨m, rfl⟩ | rfl <;> rfl

/-- C3 at a run in which everything succeeds and SIGINT arrives. -/
theorem c3_close_order_on_signal_witness :
    Event.signalReceived .SIGINT ∈ (listener envAllOk [] secretUP []).trace ∧
    (listener envAllOk [] secretUP []).trace.filter Event.isClose =
      [.turnConnClose true, .clientClose, .connClose true] :=
  ⟨by decide, (c3_close_order_on_signal envAllOk [] secretUP [] .SIGINT (by decide)).1⟩

/-- C4, at two runs in which allocation succeeds and a later setup step fails
(the binding request in the first, the probe write in the second): the relay
conn has been acquired, yet the only closes of the run are the TURN client and
the socket; the relay conn is never closed, because its deferred close
(`main.go:155`) is registered only after the probe. -/
theorem c4_relay_conn_not_closed_on_binding_failure :
    (Event.clientAllocate (some ⟨[10, 0, 0, 1], 5000⟩) ∈
        (listener envBindingFails [] secretUP []).trace ∧
      (listener envBindingFails [] secretUP []).exit =
        .panicked (.logPanicf .failedToSendBindingRequest) ∧
      (listener envBindingFails [] secretUP []).trace.filter Event.isClose =
        [.clientClose, .connClose true]) ∧
    (Event.clientAllocate (some ⟨[10, 0, 0, 1], 5000⟩) ∈
        (listener envProbeFails [] secretUP []).trace ∧
      (listener envProbeFails [] secretUP []).exit = .panicked (.logPanicf .failedToWrite) ∧
      (listener envProbeFails [] secretUP []).trace.filter Event.isClose =
        [.clientClose, .connClose true]) := by
  decide

/-- The stages attempted by a run are an initial segment of `stepOrder`. -/
theorem listener_steps_initial_segment (env : ListenerEnv) (a u r : Str) :
    (stepsOf (listener env a u r).trace).map Prod.fst <+: stepOrder := by
  simp only [listener, listenerBody]
  generalize SplitN u sepEq 2 = cred
  rcases env with ⟨lp, nc, cl, ca, sb, tw, tc, cc, sg⟩
  dsimp only
  repeat' split
  all_goals
    cases cc <;> cases tc <;>
      simp [finish, runDefers, runDeferred, stepsOf, Event.step, stepOrder]

/-- Every stage attempted by a run, except the last one, succeeded. -/
theorem listener_steps_ok_before_last (env : ListenerEnv) (a u r : Str) :
    ∀ x ∈ (stepsOf (listener env a u r).trace).dropLast, x.2 = true := by
  simp only [listener, listenerBody]
  generalize SplitN u sepEq 2 = cred
  rcases env with ⟨lp, nc, cl, ca, sb, tw, tc, cc, sg⟩
  dsimp only
  repeat' split
  all_goals
    cases cc <;> cases tc <;>
      simp [finish, runDefers, runDeferred, stepsOf, Event.step]

/-- After a failed allocation there is no binding request and no relay write. -/
theorem listener_allocate_fails (env : ListenerEnv) (a u r : Str)
    (h : env.clientAllocate = none) :
    (listener env a u r).trace.filter (fun e => e.isBindingRequest || e.isRelayWrite) = [] := by
  simp only [listener, listenerBody]
  generalize SplitN u sepEq 2 = cred
  rcases env with ⟨lp, nc, cl, ca, sb, tw, tc, cc, sg⟩
  dsimp only at h
  subst h
  dsimp only
  repeat' split
  all_goals
    cases cc <;> cases tc <;>
      simp [finish, runDefers, runDeferred, Event.isBindingRequest, Event.isRelayWrite]

/-- A secret that has an `=` is a part without `=`, the `=`, and the rest. -/
theorem exists_first_eq (s : Str) (h : eqByte ∈ s) :
    ∃ u p, eqByte ∉ u ∧ s = u ++ sepEq ++ p := by
  induction s with
  | nil => exact absurd h (List.not_mem_nil _)
  | cons c s ih =>
    by_cases hc : eqByte = c
    · exact ⟨[], s, List.not_mem_nil _, by simp [sepEq, hc]⟩
    · have hs : eqByte ∈ s := by
        rcases List.mem_cons.mp h with h1 | h1
        · exact absurd h1 hc
        · exact h1
      obtain ⟨u, p, hu, hsp⟩ := ih hs
      refine ⟨c :: u, p, ?_, by simp [hsp]⟩
      intro hm
      rcases List.mem_cons.mp hm with h1 | h1
      · exact hc h1
      · exact hu h1

/-- The stages of a run on a secret that is cut into `u` and `p`. -/
theorem listener_steps_split (env : ListenerEnv) (a u p r : Str) (h : eqByte ∉ u) :
    stepsOf (listener env a (u ++ sepEq ++ p) r).trace = expectedSteps env true := by
  simp only [listener, listenerBody, SplitN_append _ _ h]
  rcases env with ⟨lp, nc, cl, ca, sb, tw, tc, cc, sg⟩
  dsimp only
  repeat' split
  all_goals
    cases cc <;> cases tc <;>
      simp_all [finish, runDefers, runDeferred, stepsOf, Event.step, expectedSteps,
        stopAtFirstFailure]

/-- The stages of a run on a secret without `=`. -/
theorem listener_steps_no_eq (env : ListenerEnv) (a s r : Str) (h : eqByte ∉ s) :
    stepsOf (listener env a s r).trace = expectedSteps env false := by
  simp only [listener, listenerBody, SplitN_no_eq _ h]
  rcases env with ⟨lp, nc, cl, ca, sb, tw, tc, cc, sg⟩
  cases lp <;> cases cc <;>
    simp [finish, runDefers, runDeferred, stepsOf, Event.step, expectedSteps]

/-- The stages a run attempts are exactly the expected ones. -/
theorem listener_steps_exact (env : ListenerEnv) (a u r : Str) :
    stepsOf (listener env a u r).trace = expectedSteps env (decide (eqByte ∈ u)) := by
  by_cases h : eqByte ∈ u
  · obtain ⟨u1, p1, hu, rfl⟩ := exists_first_eq u h
    rw [decide_eq_true h]
    exact listener_steps_split env a u1 p1 r hu
  · rw [decide_eq_false h]
    exact listener_steps_no_eq env a u r h

/-- C5: the stages a run attempts, with their outcomes, are exactly the
expected ones: the socket bind is attempted; each further stage, in the fixed
order client creation, listen, allocate, binding request, probe send, start of
the receive loop, signal wait, is attempted as soon as the stage before it
succeeded (and the secret could be split); and nothing is attempted after a
failure.  Hence the attempted stages are an initial segment of the fixed
order, every attempted stage but the last one succeeded, and if allocation
fails the trace has no binding request and no write on the relay conn. -/
theorem c5_setup_order_and_stop_at_first_failure (env : ListenerEnv) (a u r : Str) :
    stepsOf (listener env a u r).trace = expectedSteps env (decide (eqByte ∈ u)) ∧
    (stepsOf (listener env a u r).trace).map Prod.fst <+: stepOrder ∧
    (∀ x ∈ (stepsOf (listener env a u r).trace).dropLast, x.2 = true) ∧
    (env.clientAllocate = none →
      (listener env a u r).trace.filter (fun e => e.isBindingRequest || e.isRelayWrite) = []) :=
  ⟨listener_steps_exact env a u r, listener_steps_initial_segment env a u r,
    listener_steps_ok_before_last env a u r, listener_allocate_fails env a u r⟩

/-- C5 at a run whose allocation fails: bind, client creation and listen
succeed, the allocation is attempted and fails, and nothing follows. -/
theorem c5_setup_order_and_stop_at_first_failure_witness :
    envAllocateFails.clientAllocate = none ∧
    stepsOf (listener envAllocateFails [] secretUP []).trace =
      [(.socketBind, true), (.clientCreation, true), (.listen, true), (.allocate, false)] ∧
    (listener envAllocateFails [] secretUP []).trace.filter
      (fun e => e.isBindingRequest || e.isRelayWrite) = [] :=
  ⟨rfl, (c5_setup_order_and_stop_at_first_failure envAllocateFails [] secretUP []).1,
    (c5_setup_order_and_stop_at_first_failure envAllocateFails [] secretUP []).2.2.2 rfl⟩

/-- C6: in a run whose binding request returned the mapped address `m`, the
main flow writes on the relay conn exactly once, the payload `Hello` to `m`
itself; no relay write precedes the binding request; and the receive loop
never writes on the relay conn. -/
theorem c6_single_probe_to_mapped_address (env : ListenerEnv) (a u r : Str) (m : Addr)
    (h : Event.clientSendBindingRequest (some m) ∈ (listener env a u r).trace) :
    (listener env a u r).trace.filter Event.isRelayWrite =
      [.turnConnWriteTo helloPayload m env.turnConnWriteTo] ∧
    ((listener env a u r).trace.takeWhile (fun e => !e.isBindingRequest)).filter
      Event.isRelayWrite = [] ∧
    (∀ reads, ∀ e ∈ (receiveLoop reads).trace, e.isRelayWrite = false) := by
  refine ⟨?_, ?_, ?_⟩
  · revert h
    simp only [listener, listenerBody]
    generalize SplitN u sepEq 2 = cred
    rcases env with ⟨lp, nc, cl, ca, sb, tw, tc, cc, sg⟩
    dsimp only
    repeat' split
    all_goals
      cases cc <;> cases tc <;>
        simp [finish, runDefers, runDeferred, Event.isRelayWrite] <;>
        exact fun h => h.symm
  · simp only [listener, listenerBody]
    generalize SplitN u sepEq 2 = cred
    rcases env with ⟨lp, nc, cl, ca, sb, tw, tc, cc, sg⟩
    dsimp only
    repeat' split
    all_goals
      cases cc <;> cases tc <;>
        simp [finish, runDefers, runDeferred, Event.isRelayWrite, Event.isBindingRequest,
          List.takeWhile]
  · intro reads e he
    rcases receiveLoopFrom_events reads _ e he with ⟨x, rfl⟩ | ⟨m, rfl⟩ | rfl <;> rfl

/-- C6 at a run in which everything succeeds. -/
theorem c6_single_probe_to_mapped_address_witness :
    Event.clientSendBindingRequest (some ⟨[203, 0, 113, 5], 54321⟩) ∈
      (listener envAllOk [] secretUP []).trace ∧
    (listener envAllOk [] secretUP []).trace.filter Event.isRelayWrite =
      [.turnConnWriteTo helloPayload ⟨[203, 0, 113, 5], 54321⟩ true] :=
  ⟨by decide,
    (c6_single_probe_to_mapped_address envAllOk [] secretUP [] ⟨[203, 0, 113, 5], 54321⟩
      (by decide)).1⟩

/-! ## The receive loop -/

theorem copyInto_length (buf d : Str) : (copyInto buf d).length = buf.length := by
  simp only [copyInto, List.length_append, List.length_take, List.length_drop]
  omega

theorem copyInto_take (buf d : Str) :
    (copyInto buf d).take (min d.length buf.length) = d.take (min d.length buf.length) := by
  have hle : min d.length buf.length ≤ (d.take buf.length).length := by
    simp only [List.length_take]
    omega
  rw [copyInto, List.take_append_of_le_length hle, List.take_take]
  congr 1
  omega

theorem receiveLoopFrom_datagrams (ds : List (Str × Addr)) (rest : List ReadResult) (buf : Str)
    (hb : buf.length = bufSize) :
    receiveLoopFrom (ds.map (fun d => ReadResult.datagram d.1 d.2) ++ ReadResult.error :: rest) buf
      = ⟨arrivalEvents ds ++ [Event.turnConnReadFrom none], .returned⟩ := by
  induction ds generalizing buf with
  | nil => simp [receiveLoopFrom, arrivalEvents]
  | cons d ds ih =>
    have hlen : (copyInto buf d.1).length = bufSize := by rw [copyInto_length, hb]
    have ht := copyInto_take buf d.1
    rw [List.map_cons, List.cons_append, receiveLoopFrom]
    rw [ih _ hlen, ht, hb]
    simp [arrivalEvents]

/-- C7: on `k` datagrams followed by a read error (and whatever the relay conn
would deliver afterwards), the receive loop performs, for each datagram in
turn, one read returning `n = min(len(payload), 1600)` and its source, one
report carrying that source and the first `n` bytes of that payload, and one
pause; then the failing read; and it ends by a normal return of the goroutine,
with no panic and no read after the failing one. -/
theorem c7_receive_loop_reports_in_order (ds : List (Str × Addr)) (rest : List ReadResult) :
    receiveLoop (ds.map (fun d => ReadResult.datagram d.1 d.2) ++ ReadResult.error :: rest)
      = ⟨arrivalEvents ds ++ [Event.turnConnReadFrom none], .returned⟩ :=
  receiveLoopFrom_datagrams ds rest _ (List.length_replicate _ _)

/-! ## The peer role -/

theorem runDefers_connClose (cc tc : Bool) (t : List Event) (e : Exit) :
    (runDefers cc tc [Deferred.connClose] t e).trace =
      t ++ (if cc = true then [Event.connClose true]
        else [Event.connClose false, Event.log .failedToCloseConnection]) := by
  cases cc <;> simp [runDefers, runDeferred]

theorem peerLoop_exit (env : PeerEnv) (peer : Str) (p : Addr) (fuel i : Nat) :
    (peerLoop env peer p fuel i).2 = .running ∨
      (peerLoop env peer p fuel i).2 = .panicked (.logPanicf .failedToWrite) := by
  induction fuel generalizing i with
  | zero => simp [peerLoop]
  | succ n ih =>
    rw [peerLoop]
    cases h : env.writeTo i
    · simp
    · simpa using ih (i + 1)

theorem peerLoop_panics (env : PeerEnv) (peer : Str) (p : Addr) (fuel i j : Nat)
    (hij : i ≤ j) (hj : j < i + fuel) (hf : env.writeTo j = false) :
    (peerLoop env peer p fuel i).2 = .panicked (.logPanicf .failedToWrite) := by
  induction fuel generalizing i with
  | zero => omega
  | succ n ih =>
    rw [peerLoop]
    cases h : env.writeTo i
    · simp
    · have hne : i ≠ j := by
        intro e
        rw [e, hf] at h
        exact Bool.noConfusion h
      simpa using ih (i + 1) (by omega) (by omega)

theorem peerLoop_events (env : PeerEnv) (peer : Str) (p : Addr) (fuel i : Nat) :
    ∀ e ∈ (peerLoop env peer p fuel i).1,
      (∃ m, e = .log m) ∨ (∃ pl ok, e = .connWriteTo pl p ok) ∨ e = .sleep 500 := by
  induction fuel generalizing i with
  | zero => simp [peerLoop]
  | succ n ih =>
    intro e he
    rw [peerLoop] at he
    cases h : env.writeTo i
    · simp only [h, List.cons_append, List.nil_append, List.mem_cons,
        List.mem_singleton, List.not_mem_nil, or_false] at he
      rcases he with he | he | he
      · exact Or.inl ⟨_, he⟩
      · exact Or.inr (Or.inl ⟨_, _, he⟩)
      · exact Or.inl ⟨_, he⟩
    · simp only [h, List.cons_append, List.nil_append, List.mem_cons] at he
      rcases he with he | he | he | he
      · exact Or.inl ⟨_, he⟩
      · exact Or.inr (Or.inl ⟨_, _, he⟩)
      · exact Or.inr (Or.inr he)
      · exact ih (i + 1) e he

/-- The shape of a peer run whose socket is bound, whose peer resolves and
whose first send succeeds: the three opening events, the events of the loop,
and then either nothing (the loop is still running) or the deferred close. -/
theorem peerFunc_trace_ok (env : PeerEnv) (fuel : Nat) (a u r peer : Str) (p : Addr)
    (hl : env.listenPacket = true) (hr : env.resolve peer = some p)
    (hw : env.writeTo 0 = true) :
    ∃ rest, (peerFunc env fuel a u r peer).trace =
        Event.listenPacket true :: Event.resolveUDPAddr peer (some p) ::
          Event.connWriteTo helloPayload p true :: ((peerLoop env peer p fuel 1).1 ++ rest) ∧
      (((peerFunc env fuel a u r peer).exit = .running ∧ rest = []) ∨
        ((peerFunc env fuel a u r peer).exit.isPanic = true ∧
          (rest = [Event.connClose true] ∧ env.connClose = true ∨
           rest = [Event.connClose false, Event.log .failedToCloseConnection] ∧
             env.connClose = false))) := by
  rcases peerLoop_exit env peer p fuel 1 with h | h <;> cases hc : env.connClose <;>
    simp [peerFunc, peerFuncBody, finish, hl, hr, hw, h, hc, runDefers, runDeferred, Exit.isPanic]

theorem sendDests_append (xs ys : List Event) :
    sendDests (xs ++ ys) = sendDests xs ++ sendDests ys := by
  induction xs with
  | nil => rfl
  | cons x xs ih => cases x <;> simp [sendDests, ih]

theorem sendDests_peerLoop (env : PeerEnv) (peer : Str) (p : Addr) (fuel i : Nat) :
    ∃ k, sendDests (peerLoop env peer p fuel i).1 = List.replicate k p ∧
      ∀ n, n < fuel → (∀ j, i ≤ j → j < i + n → env.writeTo j = true) → n + 1 ≤ k := by
  induction fuel generalizing i with
  | zero => exact ⟨0, by simp [peerLoop, sendDests], fun n hn => absurd hn (Nat.not_lt_zero n)⟩
  | succ m ih =>
    cases h : env.writeTo i
    · refine ⟨1, by simp [peerLoop, h, sendDests], ?_⟩
      intro n _ hall
      cases n with
      | zero => exact Nat.le_refl 1
      | succ n =>
        have := hall i (Nat.le_refl i) (by omega)
        rw [h] at this
        exact Bool.noConfusion this
    · obtain ⟨k, hk, hcount⟩ := ih (i + 1)
      refine ⟨k + 1, by simp [peerLoop, h, sendDests, hk, List.replicate_succ], ?_⟩
      intro n hn hall
      cases n with
      | zero => omega
      | succ n =>
        have := hcount n (by omega) (fun j h1 h2 => hall j (by omega) (by omega))
        omega

theorem sendGapsFrom_peerLoop (env : PeerEnv) (peer : Str) (p : Addr) (fuel i : Nat)
    (g : List Nat) (rest : List Event) (hrest : ∀ c, sendGapsFrom rest c = []) :
    sendGapsFrom ((peerLoop env peer p fuel i).1 ++ rest) (some g) = [] ∨
      ∃ k, sendGapsFrom ((peerLoop env peer p fuel i).1 ++ rest) (some g) =
        g :: List.replicate k [500] := by
  induction fuel generalizing i g with
  | zero => left; simp [peerLoop, hrest]
  | succ m ih =>
    right
    cases h : env.writeTo i
    · exact ⟨0, by simp [peerLoop, h, sendGapsFrom, hrest]⟩
    · rcases ih (i + 1) [500] with h0 | ⟨k, hk⟩
      · refine ⟨0, ?_⟩
        simp only [peerLoop, h, List.cons_append, List.nil_append, sendGapsFrom,
          List.append_assoc, List.replicate_zero]
        simpa using h0
      · refine ⟨k + 1, ?_⟩
        simp only [peerLoop, h, List.cons_append, List.nil_append, sendGapsFrom,
          List.append_assoc, List.replicate_succ]
        simpa using hk

theorem peerLoop_no_connClose (env : PeerEnv) (peer : Str) (p : Addr) (fuel i : Nat) :
    (peerLoop env peer p fuel i).1.filter Event.isConnClose = [] := by
  rw [List.filter_eq_nil_iff]
  intro e he
  rcases peerLoop_events env peer p fuel i e he with ⟨m, rfl⟩ | ⟨pl, ok, rfl⟩ | rfl <;> simp [Event.isConnClose]

/-- C8, as stated, fails: in a run with two loop iterations observed the three
sends are separated by the pauses `[]` and `[500]`: no pause at all lies
between the first datagram (`main.go:79`) and the second (`main.go:84`). -/
theorem c8_no_pause_between_first_and_second_send :
    sendGaps (peerFunc peerEnvAllOk 2 [] [] [] samplePeer).trace = [[], [500]] ∧
    ¬ (∀ g ∈ sendGaps (peerFunc peerEnvAllOk 2 [] [] [] samplePeer).trace, g = [500]) := by
  decide

/-- C8, amended: with the socket bound and the peer string resolving to `p`,
if the first `n` sends succeed, then, observing at least `n` loop iterations,
an `(n+1)`-th send is attempted; every send goes to `p`; and the pauses
between consecutive sends are: none between the first and the second
datagram, and exactly one pause of 500 ms between every later pair. -/
theorem c8_peer_sends_to_fixed_address_at_cadence (env : PeerEnv) (fuel : Nat)
    (a u r peer : Str) (p : Addr)
    (hl : env.listenPacket = true) (hr : env.resolve peer = some p) :
    (∀ n, (∀ i, i < n → env.writeTo i = true) → n ≤ fuel →
      n + 1 ≤ (sendDests (peerFunc env fuel a u r peer).trace).length) ∧
    (∀ d ∈ sendDests (peerFunc env fuel a u r peer).trace, d = p) ∧
    (sendGaps (peerFunc env fuel a u r peer).trace = [] ∨
      ∃ k, sendGaps (peerFunc env fuel a u r peer).trace = [] :: List.replicate k [500]) := by
  cases hw : env.writeTo 0
  · have ht : sendDests (peerFunc env fuel a u r peer).trace = [p] ∧
        sendGaps (peerFunc env fuel a u r peer).trace = [] := by
      cases hc : env.connClose <;>
        simp [peerFunc, peerFuncBody, finish, hl, hr, hw, hc, runDefers, runDeferred,
          sendDests, sendGaps, sendGapsFrom]
    refine ⟨?_, ?_, Or.inl ht.2⟩
    · intro n hall _
      cases n with
      | zero => rw [ht.1]; exact Nat.le_refl 1
      | succ n =>
        have := hall 0 (Nat.succ_pos n)
        rw [hw] at this
        exact Bool.noConfusion this
    · intro d hd
      rw [ht.1] at hd
      exact List.mem_singleton.mp hd
  · obtain ⟨rest, htr, hrest⟩ := peerFunc_trace_ok env fuel a u r peer p hl hr hw
    have hrd : sendDests rest = [] ∧ ∀ c, sendGapsFrom rest c = [] := by
      rcases hrest with ⟨_, h⟩ | ⟨_, ⟨h, _⟩ | ⟨h, _⟩⟩ <;> subst h <;>
        exact ⟨rfl, fun c => by cases c <;> rfl⟩
    obtain ⟨k, hk, hcount⟩ := sendDests_peerLoop env peer p fuel 1
    have hd : sendDests (peerFunc env fuel a u r peer).trace = List.replicate (k + 1) p := by
      rw [htr]
      simp [sendDests, sendDests_append, hk, hrd.1, List.replicate_succ]
    refine ⟨?_, ?_, ?_⟩
    · intro n hall hn
      rw [hd, List.length_replicate]
      cases n with
      | zero => omega
      | succ n =>
        have := hcount n (by omega) (fun j _ h2 => hall j (by omega))
        omega
    · intro d hmem
      rw [hd] at hmem
      exact List.eq_of_mem_replicate hmem
    · have hg : sendGaps (peerFunc env fuel a u r peer).trace =
          sendGapsFrom ((peerLoop env peer p fuel 1).1 ++ rest) (some []) := by
        rw [htr]
        simp [sendGaps, sendGapsFrom]
      rw [hg]
      exact sendGapsFrom_peerLoop env peer p fuel 1 [] rest hrd.2

/-- The amended C8 at a run in which every send succeeds, observed for three iterations. -/
theorem c8_peer_sends_to_fixed_address_at_cadence_witness :
    peerEnvAllOk.listenPacket = true ∧ peerEnvAllOk.resolve samplePeer = some samplePeerAddr ∧
    3 + 1 ≤ (sendDests (peerFunc peerEnvAllOk 3 [] [] [] samplePeer).trace).length :=
  ⟨rfl, rfl,
    (c8_peer_sends_to_fixed_address_at_cadence peerEnvAllOk 3 [] [] [] samplePeer samplePeerAddr
      rfl rfl).1 3 (fun _ _ => rfl) (Nat.le_refl 3)⟩

theorem isPeerOp_not_turnOp (peer : Str) (x : Option Addr) (e : Event)
    (h : e.isPeerOp peer x = true) : e.isTurnOp = false := by
  cases e <;> simp_all [Event.isPeerOp, Event.isTurnOp]

theorem peerFunc_events (env : PeerEnv) (fuel : Nat) (a u r peer : Str) :
    ∀ e ∈ (peerFunc env fuel a u r peer).trace, e.isPeerOp peer (env.resolve peer) = true := by
  cases hl : env.listenPacket
  · simp [peerFunc, peerFuncBody, finish, hl, runDefers, Event.isPeerOp]
  cases hr : env.resolve peer with
  | none =>
    cases hc : env.connClose <;>
      simp [peerFunc, peerFuncBody, finish, hl, hr, hc, runDefers, runDeferred, Event.isPeerOp]
  | some p =>
    cases hw : env.writeTo 0
    · cases hc : env.connClose <;>
        simp [peerFunc, peerFuncBody, finish, hl, hr, hw, hc, runDefers, runDeferred,
          Event.isPeerOp]
    · obtain ⟨rest, htr, hrest⟩ := peerFunc_trace_ok env fuel a u r peer p hl hr hw
      rw [htr]
      intro e he
      simp only [List.mem_cons, List.mem_append] at he
      rcases he with rfl | rfl | rfl | he | he
      · rfl
      · simp [Event.isPeerOp]
      · simp [Event.isPeerOp]
      · rcases peerLoop_events env peer p fuel 1 e he with ⟨m, rfl⟩ | ⟨pl, ok, rfl⟩ | rfl <;>
          simp [Event.isPeerOp]
      · rcases hrest with ⟨_, h⟩ | ⟨_, ⟨h, _⟩ | ⟨h, _⟩⟩ <;> subst h
        · exact absurd he (List.not_mem_nil e)
        · rw [List.mem_singleton] at he
          subst he
          rfl
        · simp only [List.mem_cons, List.mem_singleton, List.not_mem_nil, or_false] at he
          rcases he with rfl | rfl <;> rfl

/-- C9: `peerFunc` yields the same run whatever server address, secret and
realm it is given (it never reads them); its trace has no operation on a TURN
client or relay conn; and every event of it is the socket bind, the resolution
of the peer string, a send to the resolved address, a pause, the socket close,
or a log line. -/
theorem c9_peer_role_bypasses_turn_session (env : PeerEnv) (fuel : Nat)
    (a₁ s₁ r₁ a₂ s₂ r₂ peer : Str) :
    peerFunc env fuel a₁ s₁ r₁ peer = peerFunc env fuel a₂ s₂ r₂ peer ∧
    (∀ e ∈ (peerFunc env fuel a₁ s₁ r₁ peer).trace, e.isTurnOp = false) ∧
    (∀ e ∈ (peerFunc env fuel a₁ s₁ r₁ peer).trace,
      e.isPeerOp peer (env.resolve peer) = true) :=
  ⟨rfl,
    fun e he => isPeerOp_not_turnOp peer _ e (peerFunc_events env fuel a₁ s₁ r₁ peer e he),
    peerFunc_events env fuel a₁ s₁ r₁ peer⟩

/-! ## The socket is closed exactly once -/

/-- Once the socket is bound, a listener run that leaves the function closes
the socket exactly once. -/
theorem listener_connClose_once (env : ListenerEnv) (a u r : Str)
    (hl : env.listenPacket = true) (hx : (listener env a u r).exit ≠ .blocked) :
    (listener env a u r).trace.filter Event.isConnClose = [.connClose env.connClose] := by
  revert hx
  simp only [listener, listenerBody]
  generalize SplitN u sepEq 2 = cred
  rcases env with ⟨lp, nc, cl, ca, sb, tw, tc, cc, sg⟩
  dsimp only at hl
  subst hl
  dsimp only
  repeat' split
  all_goals
    cases cc <;> cases tc <;>
      simp [finish, runDefers, runDeferred, Event.isConnClose]

/-- A listener run stays in the function only while it waits for a signal that
is never delivered. -/
theorem listener_blocked_only_without_signal (env : ListenerEnv) (a u r : Str)
    (hx : (listener env a u r).exit = .blocked) : env.signal = none := by
  revert hx
  simp only [listener, listenerBody]
  generalize SplitN u sepEq 2 = cred
  rcases env with ⟨lp, nc, cl, ca, sb, tw, tc, cc, sg⟩
  dsimp only
  repeat' split
  all_goals
    cases cc <;> cases tc <;>
      simp [finish, runDefers, runDeferred]

/-- Once the socket is bound, a peer run that leaves the function closes the
socket exactly once. -/
theorem peerFunc_connClose_once (env : PeerEnv) (fuel : Nat) (a u r peer : Str)
    (hl : env.listenPacket = true) (hx : (peerFunc env fuel a u r peer).exit ≠ .running) :
    (peerFunc env fuel a u r peer).trace.filter Event.isConnClose =
      [.connClose env.connClose] := by
  cases hr : env.resolve peer with
  | none =>
    cases hc : env.connClose <;>
      simp [peerFunc, peerFuncBody, finish, hl, hr, hc, runDefers, runDeferred,
        Event.isConnClose]
  | some p =>
    cases hw : env.writeTo 0
    · cases hc : env.connClose <;>
        simp [peerFunc, peerFuncBody, finish, hl, hr, hw, hc, runDefers, runDeferred,
          Event.isConnClose]
    · obtain ⟨rest, htr, hrest⟩ := peerFunc_trace_ok env fuel a u r peer p hl hr hw
      rw [htr]
      rcases hrest with ⟨h, _⟩ | ⟨_, ⟨h, hc⟩ | ⟨h, hc⟩⟩
      · exact absurd h hx
      · subst h
        simp [List.filter_cons, List.filter_append, peerLoop_no_connClose, Event.isConnClose, hc]
      · subst h
        simp [List.filter_cons, List.filter_append, peerLoop_no_connClose, Event.isConnClose, hc]

/-- A peer run whose peer string does not resolve, or in which a send among
those observed fails, leaves the function by a panic. -/
theorem peerFunc_panics (env : PeerEnv) (fuel : Nat) (a u r peer : Str)
    (hl : env.listenPacket = true)
    (hf : env.resolve peer = none ∨ ∃ i, i ≤ fuel ∧ env.writeTo i = false) :
    (peerFunc env fuel a u r peer).exit.isPanic = true := by
  cases hr : env.resolve peer with
  | none =>
    cases hc : env.connClose <;>
      simp [peerFunc, peerFuncBody, finish, hl, hr, hc, runDefers, runDeferred, Exit.isPanic]
  | some p =>
    cases hw : env.writeTo 0
    · cases hc : env.connClose <;>
        simp [peerFunc, peerFuncBody, finish, hl, hr, hw, hc, runDefers, runDeferred,
          Exit.isPanic]
    · rcases hf with hf | ⟨i, hi, hwi⟩
      · rw [hr] at hf
        exact Option.noConfusion hf
      · have hi0 : i ≠ 0 := by
          intro e
          rw [e, hw] at hwi
          exact Bool.noConfusion hwi
        have hp := peerLoop_panics env peer p fuel 1 i (by omega) (by omega) hwi
        cases hc : env.connClose <;>
          simp [peerFunc, peerFuncBody, finish, hl, hr, hw, hc, hp, runDefers, runDeferred,
            Exit.isPanic]

/-- A listener run whose socket is bound and whose setup fails (the secret has
no `=`, or client creation, listen, allocate, the binding request or the probe
write fails) leaves the function by a panic. -/
theorem listener_setup_failure_panics (env : ListenerEnv) (a u r : Str)
    (hl : env.listenPacket = true)
    (hf : eqByte ∉ u ∨ env.newClient = false ∨ env.clientListen = false ∨
      env.clientAllocate = none ∨ env.sendBindingRequest = none ∨
      env.turnConnWriteTo = false) :
    (listener env a u r).exit.isPanic = true := by
  by_cases h : eqByte ∈ u
  · have hf1 := hf.resolve_left (not_not_intro h)
    clear hf
    obtain ⟨u1, p1, hu, rfl⟩ := exists_first_eq u h
    clear h
    revert hf1
    simp only [listener, listenerBody, SplitN_append _ _ hu]
    rcases env with ⟨lp, nc, cl, ca, sb, tw, tc, cc, sg⟩
    dsimp only at hl
    subst hl
    dsimp only
    repeat' split
    all_goals
      cases cc <;> cases tc <;>
        simp_all [finish, runDefers, runDeferred, Exit.isPanic]
  · simp only [listener, listenerBody, SplitN_no_eq _ h]
    rcases env with ⟨lp, nc, cl, ca, sb, tw, tc, cc, sg⟩
    dsimp only at hl
    subst hl
    cases cc <;> simp [finish, runDefers, runDeferred, Exit.isPanic]

/-- A listener run to which a signal is delivered leaves the function. -/
theorem listener_signal_not_blocked (env : ListenerEnv) (a u r : Str) (s : Signal)
    (hs : env.signal = some s) : (listener env a u r).exit ≠ .blocked := by
  intro hb
  rw [listener_blocked_only_without_signal env a u r hb] at hs
  exact Option.noConfusion hs

/-- C10: in both roles, once the socket is bound, the socket is closed exactly
once on every exit path.  In `listener`: every setup failure (a secret that
cannot be split, or a failing client creation, listen, allocate, binding
request or probe write) leaves the function by a panic, having closed the
socket exactly once; a run to which a signal is delivered leaves the function,
having closed the socket exactly once; and in general every run that leaves
the function has closed the socket exactly once, the only run that does not
leave it being the one that waits for a signal that never comes.  In
`peerFunc`: a resolution failure and every send failure leave the function by
a panic, and every run that leaves the function has closed the socket exactly
once. -/
theorem c10_socket_closed_exactly_once (lenv : ListenerEnv) (penv : PeerEnv) (fuel : Nat)
    (a u r peer : Str) (hl : lenv.listenPacket = true) (hp : penv.listenPacket = true) :
    ((eqByte ∉ u ∨ lenv.newClient = false ∨ lenv.clientListen = false ∨
        lenv.clientAllocate = none ∨ lenv.sendBindingRequest = none ∨
        lenv.turnConnWriteTo = false) →
      (listener lenv a u r).exit.isPanic = true ∧
      (listener lenv a u r).trace.filter Event.isConnClose = [.connClose lenv.connClose]) ∧
    (∀ s, lenv.signal = some s →
      (listener lenv a u r).exit ≠ .blocked ∧
      (listener lenv a u r).trace.filter Event.isConnClose = [.connClose lenv.connClose]) ∧
    ((listener lenv a u r).exit ≠ .blocked →
      (listener lenv a u r).trace.filter Event.isConnClose = [.connClose lenv.connClose]) ∧
    ((listener lenv a u r).exit = .blocked → lenv.signal = none) ∧
    ((peerFunc penv fuel a u r peer).exit ≠ .running →
      (peerFunc penv fuel a u r peer).trace.filter Event.isConnClose =
        [.connClose penv.connClose]) ∧
    ((penv.resolve peer = none ∨ ∃ i, i ≤ fuel ∧ penv.writeTo i = false) →
      (peerFunc penv fuel a u r peer).exit.isPanic = true ∧
      (peerFunc penv fuel a u r peer).trace.filter Event.isConnClose =
        [.connClose penv.connClose]) := by
  refine ⟨?_, ?_, listener_connClose_once lenv a u r hl,
    listener_blocked_only_without_signal lenv a u r,
    peerFunc_connClose_once penv fuel a u r peer hp, ?_⟩
  · intro hf
    have hx := listener_setup_failure_panics lenv a u r hl hf
    refine ⟨hx, listener_connClose_once lenv a u r hl ?_⟩
    intro hb
    rw [hb] at hx
    exact Bool.noConfusion hx
  · intro s hs
    have hx := listener_signal_not_blocked lenv a u r s hs
    exact ⟨hx, listener_connClose_once lenv a u r hl hx⟩
  · intro hf
    have hx := peerFunc_panics penv fuel a u r peer hp hf
    refine ⟨hx, peerFunc_connClose_once penv fuel a u r peer hp ?_⟩
    intro hb
    rw [hb] at hx
    exact Bool.noConfusion hx

/-- C10 at a listener run with a secret that cannot be split and a peer run
whose third send fails. -/
theorem c10_socket_closed_exactly_once_witness :
    envBindingFails.listenPacket = true ∧ peerEnvThirdSendFails.listenPacket = true ∧
    eqByte ∉ secretNoEq ∧ peerEnvThirdSendFails.writeTo 2 = false ∧
    (listener envBindingFails [] secretNoEq []).exit.isPanic = true ∧
    (listener envBindingFails [] secretNoEq []).trace.filter Event.isConnClose =
      [.connClose true] ∧
    (peerFunc peerEnvThirdSendFails 5 [] [] [] samplePeer).exit.isPanic = true ∧
    (peerFunc peerEnvThirdSendFails 5 [] [] [] samplePeer).trace.filter Event.isConnClose =
      [.connClose true] :=
  ⟨rfl, rfl, by decide, rfl,
    ((c10_socket_closed_exactly_once envBindingFails peerEnvThirdSendFails 5 [] secretNoEq []
      samplePeer rfl rfl).1 (Or.inl (by decide))).1,
    ((c10_socket_closed_exactly_once envBindingFails peerEnvThirdSendFails 5 [] secretNoEq []
      samplePeer rfl rfl).1 (Or.inl (by decide))).2,
    ((c10_socket_closed_exactly_once envBindingFails peerEnvThirdSendFails 5 [] secretNoEq []
      samplePeer rfl rfl).2.2.2.2.2 (Or.inr ⟨2, by decide, rfl⟩)).1,
    ((c10_socket_closed_exactly_once envBindingFails peerEnvThirdSendFails 5 [] secretNoEq []
      samplePeer rfl rfl).2.2.2.2.2 (Or.inr ⟨2, by decide, rfl⟩)).2⟩

end PionClient
